import Mathlib

/-!
Verification of the SSH-tunnel core of the `disenroll-inverter` repository
(`src/sshTunnel.go`, package `tunnel`).

Go strings are modelled as `List Char`.  The pure address-parsing code
(`NewEndpoint`, `Endpoint.String`, `NewSSHTunnel`) is embedded directly;
the effectful lifecycle code (`Start`, `WaitReady`, `forward`,
`Private_key_file`) is embedded as functions over explicit environments
that record the outcome of each external call (listen, accept, dial,
copy, file read), mirroring the Go control flow statement by statement.
-/

/-- A Go string, modelled as its list of characters. -/
abbrev GoString := List Char

/-- `strings.Split s sep` for a one-character separator `sep`:
splits `s` into all substrings separated by `sep`.
`splitChar sep "" = [""]`, and separators at the ends produce empty parts,
exactly as in Go. -/
def splitChar (sep : Char) : GoString → List GoString
  | [] => [[]]
  | c :: cs =>
    if c = sep then
      [] :: splitChar sep cs
    else
      match splitChar sep cs with
      | [] => [[c]]
      | p :: ps => (c :: p) :: ps

/-- Accumulating decimal-digit reader: consumes the whole list; fails on the
first non-digit character.  Models the digit loop inside `strconv.Atoi` /
`strconv.ParseInt` (base 10). -/
def readDigits : GoString → Nat → Option Nat
  | [], acc => some acc
  | c :: cs, acc =>
    if c.isDigit then readDigits cs (acc * 10 + (c.toNat - 48)) else none

/-- Reads a non-empty all-digit string as a `Nat`; `none` on the empty string
or on any non-digit character (`strconv.ParseInt`'s syntax error). -/
def parseDec (s : GoString) : Option Nat :=
  match s with
  | [] => none
  | _ :: _ => readDigits s 0

/-- `math.MaxInt64`: the largest value of Go's 64-bit `int`. -/
def maxInt64 : Int := 2 ^ 63 - 1

/-- `math.MinInt64`: the smallest value of Go's 64-bit `int`. -/
def minInt64 : Int := -(2 ^ 63)

/-- `strconv.Atoi` (equivalently `strconv.ParseInt(s, 10, 64)`, keeping only
the value): optional sign followed by decimal digits; any syntax error yields
value `0`; out-of-range values saturate to `math.MaxInt64` / `math.MinInt64`
(Go returns the saturated value together with `ErrRange`, and `NewEndpoint`
discards the error). -/
def atoi (s : GoString) : Int :=
  match s with
  | [] => 0
  | c :: rest =>
    if c = '-' then
      match parseDec rest with
      | none => 0
      | some n => if (2 ^ 63 : Int) < (n : Int) then minInt64 else -(n : Int)
    else if c = '+' then
      match parseDec rest with
      | none => 0
      | some n => if maxInt64 < (n : Int) then maxInt64 else (n : Int)
    else
      match parseDec (c :: rest) with
      | none => 0
      | some n => if maxInt64 < (n : Int) then maxInt64 else (n : Int)

/-- `Endpoint` (src/sshTunnel.go): a network endpoint with an optional
username.  `Port` holds a Go `int` (64-bit). -/
structure Endpoint where
  Host : GoString
  Port : Int
  User : GoString
  deriving Repr, DecidableEq

/-- First block of `NewEndpoint` (src/sshTunnel.go lines 35-38): if
`strings.Split(endpoint.Host, "@")` has more than one part, `User` becomes
`parts[0]` and `Host` becomes `parts[1]`. -/
def stripUser (e : Endpoint) : Endpoint :=
  match splitChar '@' e.Host with
  | p0 :: p1 :: _ => { e with User := p0, Host := p1 }
  | _ => e

/-- Second block of `NewEndpoint` (src/sshTunnel.go lines 40-43): if
`strings.Split(endpoint.Host, ":")` has more than one part, `Host` becomes
`parts[0]` and `Port` becomes `strconv.Atoi(parts[1])` with the error
discarded. -/
def splitPort (e : Endpoint) : Endpoint :=
  match splitChar ':' e.Host with
  | p0 :: p1 :: _ => { e with Host := p0, Port := atoi p1 }
  | _ => e

/-- `NewEndpoint` (src/sshTunnel.go lines 29-46): starts from
`{Host: s, Port: 0, User: ""}`, then applies the `@`-split block followed by
the `:`-split block. -/
def NewEndpoint (s : GoString) : Endpoint :=
  splitPort (stripUser { Host := s, Port := 0, User := [] })

/-- Decimal digit character for `d < 10` (the digit table used when
formatting an integer with `%d`). -/
def digitChar (d : Nat) : Char :=
  match d with
  | 0 => '0' | 1 => '1' | 2 => '2' | 3 => '3' | 4 => '4'
  | 5 => '5' | 6 => '6' | 7 => '7' | 8 => '8' | 9 => '9'
  | _ => '?'

/-- Big-endian decimal digits of a natural number (no sign, no leading
zeros except for `0` itself): the digit string `%d` prints for `n`. -/
def toDigits (n : Nat) : GoString :=
  if _h : n < 10 then [digitChar n]
  else toDigits (n / 10) ++ [digitChar (n % 10)]
decreasing_by exact Nat.div_lt_self (by omega) (by omega)

/-- `fmt.Sprintf("%d", i)` for a Go `int`: decimal digits, with a leading
`-` for negative values. -/
def intDec (i : Int) : GoString :=
  if i < 0 then '-' :: toDigits i.natAbs else toDigits i.natAbs

/-- `Endpoint.String` (src/sshTunnel.go lines 49-52):
`fmt.Sprintf("%s:%d", endpoint.Host, endpoint.Port)`. -/
def Endpoint.String (e : Endpoint) : GoString :=
  e.Host ++ ':' :: intDec e.Port

/-- The fields of `SSHTunnel` that construction determines (src/sshTunnel.go
lines 55-63): the three endpoints plus the SSH client configuration's user
name.  The auth method, host-key callback and 5-second timeout carry no
state relevant to the parsing claims and are left out of the record. -/
structure SSHTunnel where
  Local : Endpoint
  Server : Endpoint
  Remote : Endpoint
  ConfigUser : GoString
  deriving Repr, DecidableEq

/-- `NewSSHTunnel` (src/sshTunnel.go lines 67-96): local endpoint from
`"localhost:0"`; server endpoint parsed from `tunnelAddress`, with
`Port` set to 22 when the parsed port is 0; remote endpoint parsed from
`destination`; config user taken from the server endpoint. -/
def NewSSHTunnel (tunnelAddress : GoString) (destination : GoString) : SSHTunnel :=
  let localEndpoint := NewEndpoint ("localhost:0".toList)
  let server0 := NewEndpoint tunnelAddress
  let server := if server0.Port = 0 then { server0 with Port := 22 } else server0
  { Local := localEndpoint
    Server := server
    Remote := NewEndpoint destination
    ConfigUser := server.User }

example : NewEndpoint ("tstuser@127.0.0.1".toList) =
    { Host := "127.0.0.1".toList, Port := 0, User := "tstuser".toList } := by decide

example : NewEndpoint ("222.2.2.222:22".toList) =
    { Host := "222.2.2.222".toList, Port := 22, User := [] } := by decide

example : NewEndpoint ("a@b@c".toList) =
    { Host := "b".toList, Port := 0, User := "a".toList } := by decide

example : atoi ("-7".toList) = -7 := by decide

/-! ### Lemmas about `splitChar`, digits and `atoi` -/

theorem splitChar_not_mem {sep : Char} {l : GoString} (h : sep ∉ l) :
    splitChar sep l = [l] := by
  induction l with
  | nil => rfl
  | cons c cs ih =>
    have hc : ¬ c = sep := by
      intro hcs; exact h (hcs ▸ List.mem_cons_self c cs)
    have hcs : sep ∉ cs := fun hm => h (List.mem_cons_of_mem _ hm)
    simp [splitChar, hc, ih hcs]

theorem splitChar_append {sep : Char} {a : GoString} (b : GoString)
    (h : sep ∉ a) :
    splitChar sep (a ++ sep :: b) = a :: splitChar sep b := by
  induction a with
  | nil => simp [splitChar]
  | cons c cs ih =>
    have hc : ¬ c = sep := by
      intro hcs; exact h (hcs ▸ List.mem_cons_self c cs)
    have hcs : sep ∉ cs := fun hm => h (List.mem_cons_of_mem _ hm)
    show splitChar sep (c :: (cs ++ sep :: b)) = _
    rw [splitChar, if_neg hc, ih hcs]

theorem splitChar_ne_nil (sep : Char) (l : GoString) : splitChar sep l ≠ [] := by
  cases l with
  | nil => simp [splitChar]
  | cons c cs =>
    simp only [splitChar]
    split
    · simp
    · split <;> simp

theorem splitChar_exists_cons (sep : Char) (l : GoString) :
    ∃ q qs, splitChar sep l = q :: qs := by
  cases hq : splitChar sep l with
  | nil => exact absurd hq (splitChar_ne_nil sep l)
  | cons q qs => exact ⟨q, qs, rfl⟩

theorem stripUser_two_parts {e : Endpoint} {p0 p1 : GoString} {ps : List GoString}
    (h : splitChar '@' e.Host = p0 :: p1 :: ps) :
    stripUser e = { e with User := p0, Host := p1 } := by
  simp [stripUser, h]

theorem stripUser_one_part {e : Endpoint} (h : '@' ∉ e.Host) :
    stripUser e = e := by
  simp [stripUser, splitChar_not_mem h]

theorem splitPort_two_parts {e : Endpoint} {p0 p1 : GoString} {ps : List GoString}
    (h : splitChar ':' e.Host = p0 :: p1 :: ps) :
    splitPort e = { e with Host := p0, Port := atoi p1 } := by
  simp [splitPort, h]

theorem splitPort_one_part {e : Endpoint} (h : ':' ∉ e.Host) :
    splitPort e = e := by
  simp [splitPort, splitChar_not_mem h]

theorem readDigits_nonDigit_head {c : Char} {cs : GoString} {acc : Nat}
    (h : c.isDigit = false) : readDigits (c :: cs) acc = none := by
  simp [readDigits, h]

/-- If every character of `p` is a non-digit, then `atoi p = 0`
(syntax errors yield value 0). -/
theorem atoi_of_no_digits {p : GoString}
    (h : ∀ c ∈ p, c.isDigit = false) : atoi p = 0 := by
  cases p with
  | nil => rfl
  | cons c rest =>
    have hrest : parseDec rest = none := by
      cases rest with
      | nil => rfl
      | cons c2 r2 =>
        have h2 : c2.isDigit = false := h c2 (by simp)
        simp [parseDec, readDigits_nonDigit_head h2]
    have hc : c.isDigit = false := h c (by simp)
    by_cases hminus : c = '-'
    · simp [atoi, hminus, hrest]
    · by_cases hplus : c = '+'
      · simp [atoi, hminus, hplus, hrest]
      · have : parseDec (c :: rest) = none := by
          simp [parseDec, readDigits_nonDigit_head hc]
        simp [atoi, hminus, hplus, this]

/-- The normal form of `NewEndpoint` on a `user@hostpart` input where the
user contains no `@` and `hostpart` has no `@` either. -/
theorem NewEndpoint_user_host {u v : GoString} (hu : '@' ∉ u) (hv : '@' ∉ v) :
    NewEndpoint (u ++ '@' :: v) =
      splitPort { Host := v, Port := 0, User := u } := by
  have h1 : splitChar '@' (u ++ '@' :: v) = u :: splitChar '@' v :=
    splitChar_append v hu
  have h2 : splitChar '@' v = [v] := splitChar_not_mem hv
  rw [NewEndpoint, stripUser_two_parts (e := { Host := u ++ '@' :: v, Port := 0, User := [] }) (by rw [h1, h2])]

/-! ### C1 — how `NewEndpoint` splits on `@` -/

/-- C1 (counterexample): the claim says that for an input with more than one
`@`, the user is everything before the **last** `@` and the host begins after
it; on `"a@b@c"` that would give user `"a@b"` and host `"c"`, but
`NewEndpoint` yields user `"a"` and host `"b"`. -/
theorem NewEndpoint_last_at_counterexample :
    NewEndpoint ("a@b@c".toList) =
      { Host := "b".toList, Port := 0, User := "a".toList } ∧
    (NewEndpoint ("a@b@c".toList)).User ≠ "a@b".toList ∧
    (NewEndpoint ("a@b@c".toList)).Host ≠ "c".toList := by
  decide

/-- C1 (amended): `NewEndpoint` splits on the **first** `@`: the user is
everything before the first `@`, the host is taken from the segment between
the first and the second `@` (anything after a second `@` is discarded), and
that segment is then split on `:` to separate host from port. -/
theorem NewEndpoint_splits_on_first_at (u h r p : GoString)
    (hu : '@' ∉ u) (hh : '@' ∉ h) (hhc : ':' ∉ h)
    (hp : '@' ∉ p) (hpc : ':' ∉ p) :
    NewEndpoint (u ++ '@' :: (h ++ '@' :: r)) =
      { Host := h, Port := 0, User := u } ∧
    NewEndpoint (u ++ '@' :: ((h ++ ':' :: p) ++ '@' :: r)) =
      { Host := h, Port := atoi p, User := u } := by
  constructor
  · obtain ⟨q, qs, hq⟩ := splitChar_exists_cons '@' r
    have h1 : splitChar '@' (u ++ '@' :: (h ++ '@' :: r)) =
        u :: h :: q :: qs := by
      rw [splitChar_append _ hu, splitChar_append _ hh, hq]
    rw [NewEndpoint,
      stripUser_two_parts (e := { Host := u ++ '@' :: (h ++ '@' :: r), Port := 0, User := [] }) h1,
      splitPort_one_part (e := { Host := h, Port := 0, User := u }) hhc]
  · obtain ⟨q, qs, hq⟩ := splitChar_exists_cons '@' r
    have hnp : '@' ∉ h ++ ':' :: p := by
      simp only [List.mem_append, List.mem_cons]
      rintro (hm | hm | hm)
      · exact hh hm
      · exact absurd hm.symm (by decide)
      · exact hp hm
    have h1 : splitChar '@' (u ++ '@' :: ((h ++ ':' :: p) ++ '@' :: r)) =
        u :: (h ++ ':' :: p) :: q :: qs := by
      rw [splitChar_append _ hu, splitChar_append _ hnp, hq]
    have h2 : splitChar ':' (h ++ ':' :: p) = h :: [p] := by
      rw [splitChar_append _ hhc, splitChar_not_mem hpc]
    rw [NewEndpoint,
      stripUser_two_parts
        (e := { Host := u ++ '@' :: ((h ++ ':' :: p) ++ '@' :: r), Port := 0, User := [] }) h1,
      splitPort_two_parts (e := { Host := h ++ ':' :: p, Port := 0, User := u }) h2]

/-- C1 witness: concrete instance of the amended statement. -/
theorem NewEndpoint_splits_on_first_at_witness :
    NewEndpoint ("a".toList ++ '@' :: ("bb".toList ++ '@' :: "c".toList)) =
      { Host := "bb".toList, Port := 0, User := "a".toList } ∧
    NewEndpoint ("a".toList ++ '@' :: (("bb".toList ++ ':' :: "9".toList) ++ '@' :: "c".toList)) =
      { Host := "bb".toList, Port := atoi ("9".toList), User := "a".toList } :=
  NewEndpoint_splits_on_first_at "a".toList "bb".toList "c".toList "9".toList
    (by decide) (by decide) (by decide) (by decide) (by decide)

/-! ### C3 — missing or non-numeric ports parse to 0 with no error -/

/-- C3: `NewEndpoint` is a total function (parsing never reports an error);
on a bare host (no `@`, no `:`) it yields port 0 and empty user, appending
`":0"` gives a result equal in every field, and a non-numeric port also
yields 0. -/
theorem NewEndpoint_port_default (h : GoString) (hA : '@' ∉ h) (hC : ':' ∉ h) :
    NewEndpoint h = { Host := h, Port := 0, User := [] } ∧
    NewEndpoint (h ++ [':', '0']) = NewEndpoint h ∧
    ∀ p, '@' ∉ p → ':' ∉ p → (∀ c ∈ p, c.isDigit = false) →
      NewEndpoint (h ++ ':' :: p) = { Host := h, Port := 0, User := [] } := by
  have hbare : NewEndpoint h = { Host := h, Port := 0, User := [] } := by
    rw [NewEndpoint, stripUser_one_part (e := { Host := h, Port := 0, User := [] }) hA,
      splitPort_one_part (e := { Host := h, Port := 0, User := [] }) hC]
  have hgen : ∀ p, '@' ∉ p → ':' ∉ p →
      NewEndpoint (h ++ ':' :: p) = { Host := h, Port := atoi p, User := [] } := by
    intro p hpA hpC
    have hnA : '@' ∉ h ++ ':' :: p := by
      simp only [List.mem_append, List.mem_cons]
      rintro (hm | hm | hm)
      · exact hA hm
      · exact absurd hm.symm (by decide)
      · exact hpA hm
    have h2 : splitChar ':' (h ++ ':' :: p) = h :: [p] := by
      rw [splitChar_append _ hC, splitChar_not_mem hpC]
    rw [NewEndpoint, stripUser_one_part (e := { Host := h ++ ':' :: p, Port := 0, User := [] }) hnA,
      splitPort_two_parts (e := { Host := h ++ ':' :: p, Port := 0, User := [] }) h2]
  refine ⟨hbare, ?_, ?_⟩
  · have := hgen ['0'] (by decide) (by decide)
    have h0 : atoi ['0'] = 0 := by decide
    rw [show h ++ [':', '0'] = h ++ ':' :: ['0'] from rfl, this, hbare, h0]
  · intro p hpA hpC hnum
    rw [hgen p hpA hpC, atoi_of_no_digits hnum]

/-- C3 witness: `parse("host")` and `parse("host:0")` agree and have port 0,
empty user; `parse("host:x")` (non-numeric port) also yields port 0. -/
theorem NewEndpoint_port_default_witness :
    NewEndpoint ("host".toList) = { Host := "host".toList, Port := 0, User := [] } ∧
    NewEndpoint ("host".toList ++ [':', '0']) = NewEndpoint ("host".toList) ∧
    NewEndpoint ("host".toList ++ ':' :: "x".toList) =
      { Host := "host".toList, Port := 0, User := [] } := by
  obtain ⟨h1, h2, h3⟩ := NewEndpoint_port_default ("host".toList) (by decide) (by decide)
  exact ⟨h1, h2, h3 ("x".toList) (by decide) (by decide) (by decide)⟩

/-! ### Decimal rendering and its round trip through `atoi` -/

theorem digitChar_isDigit {d : Nat} (hd : d < 10) :
    (digitChar d).isDigit = true := by
  interval_cases d <;> decide

theorem digitChar_val {d : Nat} (hd : d < 10) :
    (digitChar d).toNat - 48 = d := by
  interval_cases d <;> decide

theorem toDigits_lt_ten {n : Nat} (hn : n < 10) :
    toDigits n = [digitChar n] := by
  rw [toDigits]
  simp [hn]

theorem toDigits_ge_ten {n : Nat} (hn : ¬ n < 10) :
    toDigits n = toDigits (n / 10) ++ [digitChar (n % 10)] := by
  rw [toDigits]
  simp [hn]

theorem toDigits_all_digits (n : Nat) : ∀ c ∈ toDigits n, c.isDigit = true := by
  induction n using Nat.strongRecOn with
  | ind n ih =>
    by_cases hn : n < 10
    · rw [toDigits_lt_ten hn]
      intro c hc
      rw [List.mem_singleton] at hc
      exact hc ▸ digitChar_isDigit hn
    · rw [toDigits_ge_ten hn]
      intro c hc
      rcases List.mem_append.mp hc with hm | hm
      · exact ih (n / 10) (Nat.div_lt_self (by omega) (by omega)) c hm
      · rw [List.mem_singleton] at hm
        exact hm ▸ digitChar_isDigit (Nat.mod_lt n (by omega))

theorem toDigits_ne_nil (n : Nat) : toDigits n ≠ [] := by
  by_cases hn : n < 10
  · rw [toDigits_lt_ten hn]; simp
  · rw [toDigits_ge_ten hn]; simp

theorem readDigits_append (a b : GoString) (acc : Nat) :
    readDigits (a ++ b) acc =
      match readDigits a acc with
      | none => none
      | some v => readDigits b v := by
  induction a generalizing acc with
  | nil => simp [readDigits]
  | cons c cs ih =>
    by_cases hc : c.isDigit
    · simp [readDigits, hc, ih]
    · simp [readDigits, hc]

theorem readDigits_toDigits (n : Nat) : ∀ acc : Nat,
    readDigits (toDigits n) acc = some (acc * 10 ^ (toDigits n).length + n) := by
  induction n using Nat.strongRecOn with
  | ind n ih =>
    intro acc
    by_cases hn : n < 10
    · rw [toDigits_lt_ten hn]
      simp [readDigits, digitChar_isDigit hn, digitChar_val hn]
    · rw [toDigits_ge_ten hn]
      rw [readDigits_append, ih (n / 10) (Nat.div_lt_self (by omega) (by omega)) acc]
      have h10 : n % 10 < 10 := Nat.mod_lt n (by omega)
      simp only [readDigits, digitChar_isDigit h10, if_true, digitChar_val h10,
        List.length_append, List.length_singleton]
      congr 1
      have hdm : 10 * (n / 10) + n % 10 = n := Nat.div_add_mod n 10
      calc (acc * 10 ^ (toDigits (n / 10)).length + n / 10) * 10 + n % 10
          = acc * (10 ^ (toDigits (n / 10)).length * 10) + (10 * (n / 10) + n % 10) := by
            ring
        _ = acc * 10 ^ ((toDigits (n / 10)).length + 1) + n := by
            rw [hdm, pow_succ]

theorem parseDec_toDigits (n : Nat) : parseDec (toDigits n) = some n := by
  cases hd : toDigits n with
  | nil => exact absurd hd (toDigits_ne_nil n)
  | cons c cs =>
    have := readDigits_toDigits n 0
    rw [hd] at this
    simp [parseDec, this]

/-- `atoi` is a left inverse of decimal rendering for every value that fits
in a Go `int`. -/
theorem atoi_toDigits {n : Nat} (hn : (n : Int) ≤ maxInt64) :
    atoi (toDigits n) = (n : Int) := by
  cases hd : toDigits n with
  | nil => exact absurd hd (toDigits_ne_nil n)
  | cons c cs =>
    have hcd : c.isDigit = true := by
      have := toDigits_all_digits n c
      rw [hd] at this
      exact this (by simp)
    have hcm : ¬ c = '-' := by
      intro hcc; rw [hcc] at hcd; exact absurd hcd (by decide)
    have hcp : ¬ c = '+' := by
      intro hcc; rw [hcc] at hcd; exact absurd hcd (by decide)
    have hp : parseDec (c :: cs) = some n := by
      rw [← hd]; exact parseDec_toDigits n
    rw [← hd]
    simp only [hd, atoi, hcm, hcp, if_false, hp]
    rw [if_neg (not_lt.mpr hn)]

/-- Rendering a nonnegative Go `int` with `%d` prints just the digits. -/
theorem intDec_ofNat (n : Nat) : intDec (n : Int) = toDigits n := by
  rw [intDec, if_neg (not_lt.mpr (by positivity))]
  simp

/-! ### C2 — parse then render -/

/-- C2 (counterexample): `"u@h:007"` has the form `user@host:port` with a
decimal-numeral port, but parse-then-render yields `"h:7"`, not `"h:007"`:
the exact round trip fails for numerals with leading zeros (and likewise for
values beyond `math.MaxInt64`, where `Atoi` saturates). -/
theorem parse_render_counterexample :
    Endpoint.String (NewEndpoint ("u@h:007".toList)) = "h:7".toList ∧
    Endpoint.String (NewEndpoint ("u@h:007".toList)) ≠ "h:007".toList := by
  have he : NewEndpoint ("u@h:007".toList) =
      { Host := "h".toList, Port := 7, User := "u".toList } := by decide
  have h7 : intDec 7 = ['7'] := by
    rw [show (7 : Int) = ((7 : Nat) : Int) from rfl, intDec_ofNat,
      toDigits_lt_ten (by omega)]
    decide
  constructor
  · rw [he, Endpoint.String, h7]
    decide
  · rw [he, Endpoint.String, h7]
    decide

/-- C2 (amended): for address strings `user@host:port` where the user
contains no `@`, the host contains neither `@` nor `:`, and the port is the
canonical decimal numeral of a value that fits in a Go `int` (no sign, no
leading zeros), parsing with `NewEndpoint` retains the user and rendering
with `String` yields exactly `host:port`. -/
theorem parse_render_roundtrip (u h : GoString) (n : Nat)
    (hu : '@' ∉ u) (hh : '@' ∉ h) (hhc : ':' ∉ h) (hn : (n : Int) ≤ maxInt64) :
    NewEndpoint (u ++ '@' :: (h ++ ':' :: toDigits n)) =
      { Host := h, Port := (n : Int), User := u } ∧
    Endpoint.String (NewEndpoint (u ++ '@' :: (h ++ ':' :: toDigits n))) =
      h ++ ':' :: toDigits n := by
  have hdig := toDigits_all_digits n
  have hdA : '@' ∉ toDigits n := by
    intro hm
    exact absurd (hdig _ hm) (by decide)
  have hdC : ':' ∉ toDigits n := by
    intro hm
    exact absurd (hdig _ hm) (by decide)
  have hvA : '@' ∉ h ++ ':' :: toDigits n := by
    simp only [List.mem_append, List.mem_cons]
    rintro (hm | hm | hm)
    · exact hh hm
    · exact absurd hm.symm (by decide)
    · exact hdA hm
  have h2 : splitChar ':' (h ++ ':' :: toDigits n) = h :: [toDigits n] := by
    rw [splitChar_append _ hhc, splitChar_not_mem hdC]
  have hmain : NewEndpoint (u ++ '@' :: (h ++ ':' :: toDigits n)) =
      { Host := h, Port := (n : Int), User := u } := by
    rw [NewEndpoint_user_host hu hvA,
      splitPort_two_parts (e := { Host := h ++ ':' :: toDigits n, Port := 0, User := u }) h2,
      atoi_toDigits hn]
  refine ⟨hmain, ?_⟩
  rw [hmain, Endpoint.String, intDec_ofNat]

/-- C2 witness: concrete instance of the amended round trip. -/
theorem parse_render_roundtrip_witness :
    Endpoint.String (NewEndpoint ("u".toList ++ '@' :: ("h".toList ++ ':' :: toDigits 7))) =
      "h".toList ++ ':' :: toDigits 7 :=
  (parse_render_roundtrip "u".toList "h".toList 7 (by decide) (by decide) (by decide)
    (by norm_num [maxInt64])).2

/-! ### C4 — the jump-host port default in `NewSSHTunnel` -/

/-- C4 (counterexample): for the jump-host address `"u@h:22"`, the
constructed `Server` port is 22 yet the parsed port (also 22) is nonzero, so
"`Server.Port = 22` if and only if the parsed port was 0" fails. -/
theorem NewSSHTunnel_port_iff_counterexample :
    (NewSSHTunnel ("u@h:22".toList) ("d:1".toList)).Server.Port = 22 ∧
    (NewEndpoint ("u@h:22".toList)).Port ≠ 0 ∧
    ¬((NewSSHTunnel ("u@h:22".toList) ("d:1".toList)).Server.Port = 22 ↔
        (NewEndpoint ("u@h:22".toList)).Port = 0) := by
  decide

/-- C4 (amended): the jump-host endpoint's port is forced to 22 **if** the
parsed port was 0; any nonzero parsed port — including a negative one
obtained from a signed numeral — is kept unchanged (so the converse of the
claimed equivalence fails whenever the address itself names port 22). -/
theorem NewSSHTunnel_server_port (addr dest : GoString) :
    ((NewEndpoint addr).Port = 0 →
      (NewSSHTunnel addr dest).Server = { NewEndpoint addr with Port := 22 }) ∧
    ((NewEndpoint addr).Port ≠ 0 →
      (NewSSHTunnel addr dest).Server = NewEndpoint addr) := by
  constructor
  · intro h0
    simp [NewSSHTunnel, h0]
  · intro h0
    simp [NewSSHTunnel, h0]

/-- C4 witness: port 0 is replaced by 22, while the negative port parsed
from `"u@h:-5"` is kept unchanged. -/
theorem NewSSHTunnel_server_port_witness :
    (NewSSHTunnel ("u@h".toList) ("d:1".toList)).Server =
      { NewEndpoint ("u@h".toList) with Port := 22 } ∧
    (NewSSHTunnel ("u@h:-5".toList) ("d:1".toList)).Server =
      NewEndpoint ("u@h:-5".toList) :=
  ⟨(NewSSHTunnel_server_port ("u@h".toList) ("d:1".toList)).1 (by decide),
   (NewSSHTunnel_server_port ("u@h:-5".toList) ("d:1".toList)).2 (by decide)⟩

/-! ### Runtime model of the lifecycle code

The effectful methods are embedded as functions of an explicit environment
recording the outcome of every external call, following the Go control flow
line by line.  Concurrency enters only through the `select` statement in
`WaitReady`, which is modelled as a relation (a `select` may take any branch
whose channel is ready), and through the accept loop, whose external events
are modelled as a trace. -/

/-- Go `error` values arising in the tunnel lifecycle.  `fmt.Errorf` with
`%w` is modelled structurally as a wrapping constructor. -/
inductive GoError where
  | base : GoString → GoError
  | ctxCanceled : GoError
  | failedToListen : GoString → GoError → GoError
  | failedToAccept : GoError → GoError
  deriving Repr, DecidableEq

/-- State visible to `WaitReady` (src/sshTunnel.go lines 141-148):
whether `t.readyCh` has been closed, whether `ctx.Done()` has fired, and
`ctx.Err()`. -/
structure WaitState where
  readyFired : Bool
  ctxDone : Bool
  ctxErr : GoError
  deriving Repr, DecidableEq

/-- `WaitReady` (src/sshTunnel.go lines 141-148): a `select` over
`<-t.readyCh` (returns `nil`) and `<-ctx.Done()` (returns `ctx.Err()`).
A `select` branch can complete exactly when its channel is ready, so the
method's possible return values form a relation on the state; when neither
channel is ready the call blocks and there is no return value. -/
inductive WaitReady : WaitState → Option GoError → Prop where
  | ready : ∀ s : WaitState, s.readyFired = true → WaitReady s none
  | canceled : ∀ s : WaitState, s.ctxDone = true → WaitReady s (some s.ctxErr)

/-- Environment of one `forward` call (src/sshTunnel.go lines 153-190):
whether `ssh.Dial` to the jump host succeeds, whether `serverConn.Dial` to
the remote destination succeeds, and whether each of the two `io.Copy`
directions ends with an error (which is only logged). -/
structure ForwardEnv where
  serverDialOk : Bool
  remoteDialOk : Bool
  copyToLocalErr : Bool
  copyToRemoteErr : Bool
  deriving Repr, DecidableEq

/-- What one `forward` call did with its resources.  `Acquired` fields
record whether the resource was ever obtained; `Closed` fields whether its
`Close` ran; `fatalExit` whether `log.Fatalf` terminated the process
(`log.Fatalf` calls `os.Exit(1)`, which does **not** run deferred calls). -/
structure FwdOutcome where
  localConnClosed : Bool
  serverConnAcquired : Bool
  serverConnClosed : Bool
  remoteConnAcquired : Bool
  remoteConnClosed : Bool
  fatalExit : Bool
  deriving Repr, DecidableEq

/-- `forward` (src/sshTunnel.go lines 153-190), applied to an accepted local
connection.  `defer localConn.Close()` is registered first; a failing
`ssh.Dial` hits `log.Fatalf`, which exits the process without running any
deferred `Close`; a failing `serverConn.Dial` is logged and `forward`
returns, running the deferred closes of the server connection and the local
connection; otherwise both copies run (copy errors are only logged) and all
three deferred closes run on return. -/
def forward (env : ForwardEnv) : FwdOutcome :=
  if env.serverDialOk = false then
    { localConnClosed := false, serverConnAcquired := false, serverConnClosed := false,
      remoteConnAcquired := false, remoteConnClosed := false, fatalExit := true }
  else if env.remoteDialOk = false then
    { localConnClosed := true, serverConnAcquired := true, serverConnClosed := true,
      remoteConnAcquired := false, remoteConnClosed := false, fatalExit := false }
  else
    { localConnClosed := true, serverConnAcquired := true, serverConnClosed := true,
      remoteConnAcquired := true, remoteConnClosed := true, fatalExit := false }

/-- One iteration's worth of external input to the accept loop
(src/sshTunnel.go lines 121-138): either `listener.Accept()` returns a
connection (which is handed to `forward` with the given environment), or it
fails with an error, the `Bool` recording whether `ctx.Done()` had fired at
the moment of the failure. -/
inductive AcceptEvent where
  | conn : ForwardEnv → AcceptEvent
  | acceptErr : GoError → Bool → AcceptEvent
  deriving Repr, DecidableEq

/-- How an execution of `Start` ends. -/
inductive LoopResult where
  | accepting : LoopResult
  | cleanShutdown : LoopResult
  | failed : GoError → LoopResult
  | processExited : LoopResult
  deriving Repr, DecidableEq

/-- The accept loop (src/sshTunnel.go lines 121-138) over a trace of events:
an accepted connection spawns `forward` (sequentialised here: a forward
whose `log.Fatalf` fires kills the whole process, ending the trace); on an
accept failure the loop runs `select { case <-ctx.Done(): return nil;
default: return fmt.Errorf(...) }` — the decision reads only the
cancellation state, never the error value, and in either case the loop
returns, accepting nothing further.  Returns the loop's result together
with the outcomes of the forwards it spawned. -/
def acceptLoop : List AcceptEvent → LoopResult × List FwdOutcome
  | [] => (.accepting, [])
  | .conn fenv :: rest =>
    let out := forward fenv
    if out.fatalExit = true then
      (.processExited, [out])
    else
      ((acceptLoop rest).1, out :: (acceptLoop rest).2)
  | .acceptErr e canceled :: _ =>
    if canceled = true then (.cleanShutdown, [])
    else (.failed (.failedToAccept e), [])

/-- The mutable state `Start` touches: the local endpoint (its port is
overwritten with the OS-assigned one) and the readiness channel. -/
structure TunnelRun where
  Local : Endpoint
  readyFired : Bool
  deriving Repr, DecidableEq

/-- State of a tunnel as constructed, before `Start` runs: readiness has not
fired. -/
def initialRun (t : SSHTunnel) : TunnelRun :=
  { Local := t.Local, readyFired := false }

/-- Environment of one `Start` call (src/sshTunnel.go lines 101-138):
whether `net.Listen` succeeds (with its error otherwise), the OS-assigned
port on success, and the accept-loop trace. -/
structure StartEnv where
  listenOk : Bool
  listenErr : GoError
  assignedPort : Int
  events : List AcceptEvent
  deriving Repr, DecidableEq

/-- `Start` (src/sshTunnel.go lines 101-138): on `net.Listen` failure it
returns `fmt.Errorf("failed to listen on %s...: %w", t.Local.String(), err)`
immediately — the local port is not assigned and `readyCh` is not closed;
on success it records the assigned port, closes `readyCh`, and enters the
accept loop. -/
def StartRun (t : TunnelRun) (env : StartEnv) : TunnelRun × LoopResult :=
  if env.listenOk = false then
    (t, .failed (.failedToListen (Endpoint.String t.Local) env.listenErr))
  else
    ({ Local := { t.Local with Port := env.assignedPort }, readyFired := true },
      (acceptLoop env.events).1)

/-- `ssh.AuthMethod` as far as `Private_key_file` is concerned: either the
public-keys method built from a parsed signer (abstracted by the key bytes),
or Go's `nil`, modelled as `none` at the use site. -/
inductive AuthMethod where
  | publicKeys : GoString → AuthMethod
  deriving Repr, DecidableEq

/-- External collaborators of `Private_key_file`: `os.ReadFile` and
`ssh.ParsePrivateKey` (the signer abstracted by a byte string). -/
structure KeyFileEnv where
  readFile : GoString → Except GoError GoString
  parsePrivateKey : GoString → Except GoError GoString

/-- `Private_key_file` (src/sshTunnel.go lines 192-206): its Go return type
is a bare `ssh.AuthMethod` with no error component; a failing read or a
failing parse is logged and yields `nil` (`none` here), otherwise
`ssh.PublicKeys(key)` is returned. -/
def Private_key_file (env : KeyFileEnv) (path : GoString) : Option AuthMethod :=
  match env.readFile path with
  | .error _ => none
  | .ok buffer =>
    match env.parsePrivateKey buffer with
    | .error _ => none
    | .ok key => some (.publicKeys key)

/-! ### Helper lemmas for the runtime model -/

theorem forward_not_fatal {f : ForwardEnv} (h : f.serverDialOk = true) :
    (forward f).fatalExit = false := by
  by_cases h2 : f.remoteDialOk = false
  · simp [forward, h, h2]
  · simp [forward, h, h2]

theorem acceptLoop_ok_prefix (fenvs : List ForwardEnv)
    (hok : ∀ f ∈ fenvs, f.serverDialOk = true) (tail : List AcceptEvent) :
    acceptLoop (fenvs.map AcceptEvent.conn ++ tail) =
      ((acceptLoop tail).1, fenvs.map forward ++ (acceptLoop tail).2) := by
  induction fenvs with
  | nil => simp
  | cons f fs ih =>
    have hf : (forward f).fatalExit = false := forward_not_fatal (hok f (by simp))
    simp [acceptLoop, hf, ih (fun g hg => hok g (by simp [hg]))]

/-! ### C5 — how the accept loop ends -/

/-- C5: after any number of successfully forwarded connections, an accept
failure while `ctx.Done()` has fired makes `Start` return `nil`
(`cleanShutdown`) whatever the error value is, processing no further trace
events; the same failure while `ctx.Done()` has not fired makes `Start`
return that error (wrapped).  The decision depends only on the cancellation
state at the moment the accept call fails, never on the error value. -/
theorem Start_accept_failure (t : TunnelRun) (le : GoError) (port : Int)
    (fenvs : List ForwardEnv) (hok : ∀ f ∈ fenvs, f.serverDialOk = true)
    (e : GoError) (rest : List AcceptEvent) :
    (StartRun t (StartEnv.mk true le port
        (fenvs.map AcceptEvent.conn ++ AcceptEvent.acceptErr e true :: rest))).2 =
      LoopResult.cleanShutdown ∧
    (StartRun t (StartEnv.mk true le port
        (fenvs.map AcceptEvent.conn ++ AcceptEvent.acceptErr e false :: rest))).2 =
      LoopResult.failed (.failedToAccept e) ∧
    acceptLoop (fenvs.map AcceptEvent.conn ++ AcceptEvent.acceptErr e true :: rest) =
      (LoopResult.cleanShutdown, fenvs.map forward) := by
  have h1 := acceptLoop_ok_prefix fenvs hok (AcceptEvent.acceptErr e true :: rest)
  have h2 := acceptLoop_ok_prefix fenvs hok (AcceptEvent.acceptErr e false :: rest)
  refine ⟨?_, ?_, ?_⟩
  · simp [StartRun, h1, acceptLoop]
  · simp [StartRun, h2, acceptLoop]
  · rw [h1]
    simp [acceptLoop]

/-- C5 witness: one forwarded connection, then an accept failure; cancelled
gives a clean shutdown ignoring the rest of the trace, uncancelled returns
the wrapped error. -/
theorem Start_accept_failure_witness :
    (StartRun (TunnelRun.mk (Endpoint.mk [] 0 []) false)
        (StartEnv.mk true GoError.ctxCanceled 5
          ([ForwardEnv.mk true true false false].map AcceptEvent.conn ++
            AcceptEvent.acceptErr (GoError.base ("boom".toList)) true ::
              [AcceptEvent.conn (ForwardEnv.mk true true false false)]))).2 =
      LoopResult.cleanShutdown ∧
    (StartRun (TunnelRun.mk (Endpoint.mk [] 0 []) false)
        (StartEnv.mk true GoError.ctxCanceled 5
          ([ForwardEnv.mk true true false false].map AcceptEvent.conn ++
            AcceptEvent.acceptErr (GoError.base ("boom".toList)) false ::
              [AcceptEvent.conn (ForwardEnv.mk true true false false)]))).2 =
      LoopResult.failed (.failedToAccept (GoError.base ("boom".toList))) := by
  have h := Start_accept_failure (TunnelRun.mk (Endpoint.mk [] 0 []) false)
    GoError.ctxCanceled 5 [ForwardEnv.mk true true false false] (by decide)
    (GoError.base ("boom".toList)) [AcceptEvent.conn (ForwardEnv.mk true true false false)]
  exact ⟨h.1, h.2.1⟩

/-! ### C6 — `WaitReady` -/

/-- C6: whenever the readiness signal has fired, returning `nil` is a valid
completion of `WaitReady`'s `select` (and the only one if cancellation has
not fired — in particular when `WaitReady` was called before `Start` and
blocked until `Start` bound the socket); whenever cancellation has fired
strictly before binding completed (readiness not yet fired), the only
possible return value is the cancellation's reason; and the `select` cannot
complete before one of the two signals has fired. -/
theorem WaitReady_spec (s : WaitState) :
    (s.readyFired = true → WaitReady s none) ∧
    (s.readyFired = true → s.ctxDone = false → ∀ r, WaitReady s r → r = none) ∧
    (s.ctxDone = true → s.readyFired = false → ∀ r, WaitReady s r → r = some s.ctxErr) ∧
    (∀ r, WaitReady s r → s.readyFired = true ∨ s.ctxDone = true) := by
  refine ⟨fun h => WaitReady.ready s h, ?_, ?_, ?_⟩
  · intro _hr hd r hw
    cases hw with
    | ready _ => rfl
    | canceled h => rw [h] at hd; exact absurd hd (by decide)
  · intro hd hr r hw
    cases hw with
    | ready h => rw [h] at hr; exact absurd hr (by decide)
    | canceled _ => rfl
  · intro r hw
    cases hw with
    | ready h => exact Or.inl h
    | canceled h => exact Or.inr h

/-- C6 witness: with readiness fired and no cancellation the result is
`nil`; with cancellation fired before readiness the result is the
cancellation's reason. -/
theorem WaitReady_spec_witness :
    WaitReady (WaitState.mk true false GoError.ctxCanceled) none ∧
    (∀ r, WaitReady (WaitState.mk false true GoError.ctxCanceled) r →
      r = some GoError.ctxCanceled) :=
  ⟨(WaitReady_spec (WaitState.mk true false GoError.ctxCanceled)).1 rfl,
   fun r hw =>
    (WaitReady_spec (WaitState.mk false true GoError.ctxCanceled)).2.2.1 rfl rfl r hw⟩

/-! ### C7 — resource release in `forward` -/

/-- C7 (counterexample): when the jump-host dial fails, `forward` runs
`log.Fatalf`, which exits the process without running the deferred
`localConn.Close()`: the accepted local connection — a resource this
`forward` holds on that exit path — is not released by `forward`. -/
theorem forward_release_counterexample :
    (forward (ForwardEnv.mk false true false false)).fatalExit = true ∧
    (forward (ForwardEnv.mk false true false false)).localConnClosed = false := by
  decide

/-- C7 (amended): on every exit path on which `forward` returns — normal
completion, either copy erroring, or the remote-destination dial error —
every resource it acquired (local connection, jump-host session, remote
channel) is released; on the jump-host dial error, however, `log.Fatalf`
terminates the process and the deferred close of the local connection does
not run. -/
theorem forward_release (env : ForwardEnv) :
    (env.serverDialOk = true →
      (forward env).localConnClosed = true ∧
      ((forward env).serverConnAcquired = true → (forward env).serverConnClosed = true) ∧
      ((forward env).remoteConnAcquired = true → (forward env).remoteConnClosed = true) ∧
      (forward env).fatalExit = false) ∧
    (env.serverDialOk = false →
      (forward env).fatalExit = true ∧ (forward env).localConnClosed = false) := by
  constructor
  · intro h
    by_cases h2 : env.remoteDialOk = false
    · simp [forward, h, h2]
    · simp [forward, h, h2]
  · intro h
    simp [forward, h]

/-- C7 witness: with both dials succeeding and a copy error, all three
resources are acquired and released. -/
theorem forward_release_witness :
    (forward (ForwardEnv.mk true true true false)).localConnClosed = true ∧
    ((forward (ForwardEnv.mk true true true false)).serverConnAcquired = true →
      (forward (ForwardEnv.mk true true true false)).serverConnClosed = true) ∧
    ((forward (ForwardEnv.mk true true true false)).remoteConnAcquired = true →
      (forward (ForwardEnv.mk true true true false)).remoteConnClosed = true) ∧
    (forward (ForwardEnv.mk true true true false)).fatalExit = false :=
  (forward_release (ForwardEnv.mk true true true false)).1 rfl

/-! ### C8 — a remote-destination dial failure is scoped to one forward -/

/-- C8: when the remote-destination dial fails, that `forward` closes the
local connection and the jump-host session, acquires no remote channel, and
does not terminate the process; the accept loop's result on any trace is the
same as if that forward's dials had succeeded, so the loop and every other
forward are unaffected. -/
theorem remote_dial_failure_scoped (fenv : ForwardEnv)
    (h1 : fenv.serverDialOk = true) (h2 : fenv.remoteDialOk = false) :
    (forward fenv).localConnClosed = true ∧
    (forward fenv).serverConnClosed = true ∧
    (forward fenv).remoteConnAcquired = false ∧
    (forward fenv).fatalExit = false ∧
    ∀ (pre post : List AcceptEvent) (fok : ForwardEnv), fok.serverDialOk = true →
      (acceptLoop (pre ++ AcceptEvent.conn fenv :: post)).1 =
        (acceptLoop (pre ++ AcceptEvent.conn fok :: post)).1 := by
  refine ⟨by simp [forward, h1, h2], by simp [forward, h1, h2],
    by simp [forward, h1, h2], by simp [forward, h1, h2], ?_⟩
  intro pre post fok hok
  induction pre with
  | nil =>
    simp [acceptLoop, forward_not_fatal h1, forward_not_fatal hok]
  | cons ev pre ih =>
    cases ev with
    | conn g =>
      by_cases hg : (forward g).fatalExit = true
      · simp [acceptLoop, hg]
      · simp [acceptLoop, hg, ih]
    | acceptErr e c =>
      by_cases hc : c = true
      · simp [acceptLoop, hc]
      · simp [acceptLoop, hc]

/-- C8 witness: a concrete forward whose remote dial fails closes local and
server connections, and the loop result matches the all-success run. -/
theorem remote_dial_failure_scoped_witness :
    (forward (ForwardEnv.mk true false false false)).localConnClosed = true ∧
    (acceptLoop ([] ++ AcceptEvent.conn (ForwardEnv.mk true false false false) :: [])).1 =
      (acceptLoop ([] ++ AcceptEvent.conn (ForwardEnv.mk true true false false) :: [])).1 :=
  ⟨(remote_dial_failure_scoped (ForwardEnv.mk true false false false) rfl rfl).1,
   (remote_dial_failure_scoped (ForwardEnv.mk true false false false) rfl rfl).2.2.2.2 [] []
     (ForwardEnv.mk true true false false) rfl⟩

/-! ### C9 — bind failure leaves the tunnel state unchanged -/

/-- C9: when `net.Listen` fails, `Start` returns the wrapped bind error and
the tunnel state is exactly the pre-call state of a freshly constructed
tunnel: readiness has not fired, the local port still holds its pre-call
value 0, and a subsequent `WaitReady` can only complete once cancellation
fires, returning the cancellation's reason. -/
theorem Start_bind_failure (a d : GoString) (env : StartEnv)
    (hfail : env.listenOk = false) :
    StartRun (initialRun (NewSSHTunnel a d)) env =
      (initialRun (NewSSHTunnel a d),
        LoopResult.failed
          (.failedToListen (Endpoint.String (initialRun (NewSSHTunnel a d)).Local)
            env.listenErr)) ∧
    (initialRun (NewSSHTunnel a d)).readyFired = false ∧
    (initialRun (NewSSHTunnel a d)).Local.Port = 0 ∧
    (∀ (done : Bool) (e : GoError) (r : Option GoError),
      WaitReady (WaitState.mk (initialRun (NewSSHTunnel a d)).readyFired done e) r →
        done = true ∧ r = some e) := by
  refine ⟨by simp [StartRun, hfail], rfl, ?_, ?_⟩
  · show (NewEndpoint ("localhost:0".toList)).Port = 0
    decide
  · intro done e r hw
    cases hw with
    | ready h => exact absurd h (by simp [initialRun])
    | canceled h => exact ⟨h, rfl⟩

/-- C9 witness: a concrete failing bind. -/
theorem Start_bind_failure_witness :
    StartRun (initialRun (NewSSHTunnel ("u@h".toList) ("d:1".toList)))
        (StartEnv.mk false (GoError.base ("address in use".toList)) 0 []) =
      (initialRun (NewSSHTunnel ("u@h".toList) ("d:1".toList)),
        LoopResult.failed
          (.failedToListen
            (Endpoint.String (initialRun (NewSSHTunnel ("u@h".toList) ("d:1".toList))).Local)
            (GoError.base ("address in use".toList)))) ∧
    (initialRun (NewSSHTunnel ("u@h".toList) ("d:1".toList))).Local.Port = 0 :=
  ⟨(Start_bind_failure ("u@h".toList) ("d:1".toList)
      (StartEnv.mk false (GoError.base ("address in use".toList)) 0 []) rfl).1,
   (Start_bind_failure ("u@h".toList) ("d:1".toList)
      (StartEnv.mk false (GoError.base ("address in use".toList)) 0 []) rfl).2.2.1⟩

/-! ### C10 — `Private_key_file` signals failure only by `nil` -/

/-- C10: `Private_key_file` has no error result at all (its Go return type
is a bare `ssh.AuthMethod`); whenever reading the file fails, or reading
succeeds and parsing the private key fails, it returns `nil` — the failure
is observable to the caller only as the `nil` result. -/
theorem Private_key_file_nil_on_failure (env : KeyFileEnv) (path : GoString)
    (h : (∃ e, env.readFile path = .error e) ∨
      (∃ b e, env.readFile path = .ok b ∧ env.parsePrivateKey b = .error e)) :
    Private_key_file env path = none := by
  rcases h with ⟨e, he⟩ | ⟨b, e, hb, hp⟩
  · simp [Private_key_file, he]
  · simp [Private_key_file, hb, hp]

/-- C10 witness: a read failure yields `nil`. -/
theorem Private_key_file_nil_on_failure_witness :
    Private_key_file
      (KeyFileEnv.mk (fun _ => Except.error (GoError.base ("no such file".toList)))
        (fun b => Except.ok b))
      ("id_rsa".toList) = none :=
  Private_key_file_nil_on_failure
    (KeyFileEnv.mk (fun _ => Except.error (GoError.base ("no such file".toList)))
      (fun b => Except.ok b))
    ("id_rsa".toList)
    (Or.inl ⟨GoError.base ("no such file".toList), rfl⟩)
